import Mathlib

/-!
Verification development for the MicroCeph charm broker
(`src/ceph_broker.py`, `src/ceph.py`).

The Python code is shallowly embedded: JSON/Python values become the
inductive `PyVal`; request dicts become association lists with string keys
(Python dicts preserve insertion order and have unique keys); handlers
that mutate the cluster become explicit state-passing functions over a
`World` record; a Python exception propagating out of a function is
modelled with `Except String`.  Numeric arithmetic (`percent_data`,
`0.25`, floor division) is modelled exactly over `ℚ`; IEEE-754 rounding
of Python floats is outside the model.
-/

/-- A Python/JSON value as it appears in broker requests and responses.
`rat` models Python floats exactly as rationals. -/
inductive PyVal where
  | none : PyVal
  | int : Int → PyVal
  | rat : ℚ → PyVal
  | str : String → PyVal
  | list : List PyVal → PyVal
  | dict : List (String × PyVal) → PyVal

/-- First-match association-list lookup; models Python `d.get(k)` on a
dict with string keys (keys are unique in a dict, so first match is the
match). -/
def lookupStr {α : Type} : List (String × α) → String → Option α
  | [], _ => Option.none
  | (k, v) :: rest, key => if k = key then some v else lookupStr rest key

/-- Models Python `k in d` for a string-keyed dict. -/
def containsKey {α : Type} (es : List (String × α)) (key : String) : Bool :=
  (lookupStr es key).isSome

/-- Models Python `d[k] = v`: replace in place if the key is present,
otherwise append (dicts preserve insertion order; new keys go last). -/
def setKV {α : Type} (es : List (String × α)) (key : String) (v : α) : List (String × α) :=
  if containsKey es key then
    es.map (fun e => if e.1 = key then (e.1, v) else e)
  else
    es ++ [(key, v)]

/-- Python truthiness of an optional value (`d.get(k)` returns `None`
when absent). -/
def pyTruthy : Option PyVal → Bool
  | Option.none => false
  | some v =>
    match v with
    | PyVal.none => false
    | PyVal.int n => n != 0
    | PyVal.rat q => q != 0
    | PyVal.str s => s ≠ ""
    | PyVal.list xs => !xs.isEmpty
    | PyVal.dict es => !es.isEmpty

/-- Python `str()` of a value as used in `"...".format(...)`.  Exact for
`None`, strings and integers (the only shapes the verified claims
exercise); container and float rendering is approximated. -/
def pyFmt : PyVal → String
  | PyVal.none => "None"
  | PyVal.int n => toString n
  | PyVal.rat q => toString q
  | PyVal.str s => s
  | PyVal.list _ => "[...]"
  | PyVal.dict _ => "{...}"

/-- `str()` of an optional value (absent keys read back as `None`). -/
def pyFmtOpt : Option PyVal → String
  | Option.none => "None"
  | some v => pyFmt v

/-- Python `==` restricted to scalar values (list/dict comparison is not
needed by any verified claim and conservatively yields `false`). -/
def pyEq : PyVal → PyVal → Bool
  | PyVal.none, PyVal.none => true
  | PyVal.int m, PyVal.int n => m == n
  | PyVal.rat p, PyVal.rat q => p == q
  | PyVal.str s, PyVal.str t => s == t
  | _, _ => false

/-- Python `x in xs` over a list, with `pyEq` as `==`. -/
def pyMem (x : PyVal) : List PyVal → Bool
  | [] => false
  | y :: ys => pyEq x y || pyMem x ys

/-! ## The broker jump table (`ceph_broker._get_broker_jump_table`) -/

/-- The handler functions installed in the broker jump table, one
constructor per Python handler function. -/
inductive BrokerOp where
  | handleCreatePool
  | handleCreateCephfs
  | handleCreateErasureProfile
  | deletePool
  | renamePool
  | snapshotPool
  | removePoolSnapshot
  | handleSetPoolValue
  | handleRgwRegionSet
  | handleRgwZoneSet
  | handleRgwRegionmapUpdate
  | handleRgwRegionmapDefault
  | handleRgwCreateUser
  | handlePutOsdInBucket
  | handleAddPermissionsToKey
  | handleSetKeyPermissions
deriving DecidableEq

/-- The broker jump table, key for key as in
`ceph_broker._get_broker_jump_table` (note the literal
`"reg-regionmap-default"` key in the source). -/
def brokerJumpTable : List (String × BrokerOp) :=
  [("create-pool", BrokerOp.handleCreatePool),
   ("create-cephfs", BrokerOp.handleCreateCephfs),
   ("create-erasure-profile", BrokerOp.handleCreateErasureProfile),
   ("delete-pool", BrokerOp.deletePool),
   ("rename-pool", BrokerOp.renamePool),
   ("snapshot-pool", BrokerOp.snapshotPool),
   ("remove-pool-snapshot", BrokerOp.removePoolSnapshot),
   ("set-pool-value", BrokerOp.handleSetPoolValue),
   ("rgw-region-set", BrokerOp.handleRgwRegionSet),
   ("rgw-zone-set", BrokerOp.handleRgwZoneSet),
   ("rgw-regionmap-update", BrokerOp.handleRgwRegionmapUpdate),
   ("reg-regionmap-default", BrokerOp.handleRgwRegionmapDefault),
   ("rgw-create-user", BrokerOp.handleRgwCreateUser),
   ("move-osd-to-bucket", BrokerOp.handlePutOsdInBucket),
   ("add-permissions-to-key", BrokerOp.handleAddPermissionsToKey),
   ("set-key-permissions", BrokerOp.handleSetKeyPermissions)]

/-! ## `process_requests_v1` / `process_requests`

The per-operation handlers are kept abstract: a handler takes the
operation dict and a state of type `σ` and returns the new state plus
either a Python return value (`Except.ok`, where Python `return` with no
value is `PyVal.none`) or a raised exception (`Except.error`). -/

/-- The type of an embedded broker handler over state `σ`. -/
def Handler (σ : Type) : Type := List (String × PyVal) → σ → σ × Except String PyVal

/-- The tail of `process_requests_v1`:
`if type(ret) == dict and "exit-code" in ret: return ret` else
`return {"exit-code": 0}` (also covers the empty-ops case, where
`ret` is still `None`). -/
def finishRet : Option PyVal → PyVal
  | some (PyVal.dict es) =>
    if containsKey es "exit-code" then PyVal.dict es else PyVal.dict [("exit-code", PyVal.int 0)]
  | _ => PyVal.dict [("exit-code", PyVal.int 0)]

/-- Result of running the v1 operation loop: final state, the `op` tags
dispatched to a handler in execution order, and the return value (or the
exception that propagated out of a handler). -/
structure V1Out (σ : Type) where
  state : σ
  dispatched : List String
  result : Except String PyVal

/-- The loop body of `process_requests_v1`: `ret` is the running return
value of the last executed handler, `tr` the (reversed) dispatch trace.
An operation that is not a dict raises when `req.get("op")` is
attempted; an unknown (or missing / non-string) `op` tag aborts the
whole envelope with the `Unknown operation` error. -/
def processV1Go {σ : Type} (jump : String → Option (Handler σ)) :
    List PyVal → σ → Option PyVal → List String → V1Out σ
  | [], s, ret, tr => ⟨s, tr.reverse, Except.ok (finishRet ret)⟩
  | req :: rest, s, ret, tr =>
    match req with
    | PyVal.dict es =>
      match lookupStr es "op" with
      | some (PyVal.str tag) =>
        match jump tag with
        | Option.none =>
          ⟨s, tr.reverse,
            Except.ok (PyVal.dict
              [("exit-code", PyVal.int 1),
               ("stderr", PyVal.str ("Unknown operation '" ++ tag ++ "'"))])⟩
        | some f =>
          match f es s with
          | (s', Except.ok v) => processV1Go jump rest s' (some v) (tag :: tr)
          | (s', Except.error e) => ⟨s', tr.reverse, Except.error e⟩
      | other =>
        -- `jump_table.get(op)` is `None` for a missing or non-string tag
        ⟨s, tr.reverse,
          Except.ok (PyVal.dict
            [("exit-code", PyVal.int 1),
             ("stderr", PyVal.str ("Unknown operation '" ++ pyFmtOpt other ++ "'"))])⟩
    | _ => ⟨s, tr.reverse, Except.error "AttributeError"⟩

/-- `ceph_broker.process_requests_v1`. -/
def process_requests_v1 {σ : Type} (jump : String → Option (Handler σ))
    (reqs : List PyVal) (s : σ) : V1Out σ :=
  processV1Go jump reqs s Option.none []

/-- `resp["request-id"] = request_id`, applied when the envelope carried
a truthy `request-id` (v1 responses are always dicts). -/
def addReqId (resp : PyVal) (rid : Option PyVal) : PyVal :=
  match resp with
  | PyVal.dict es =>
    if pyTruthy rid then
      match rid with
      | some r => PyVal.dict (setKV es "request-id" r)
      | Option.none => PyVal.dict es
    else PyVal.dict es
  | other => other

/-- The response built by the `except Exception` arm of
`process_requests` (note: no `request-id` is attached there). -/
def exceptionResp (reqs : List (String × PyVal)) : PyVal :=
  PyVal.dict
    [("exit-code", PyVal.int 1),
     ("stderr", PyVal.str
       ("Unexpected error occurred while processing requests: " ++ pyFmt (PyVal.dict reqs)))]

/-- `ceph_broker.process_requests` (the body inside
`decode_req_encode_rsp`; JSON decode/encode is outside the model).
An envelope whose `api-version` is the integer `1` runs the v1 loop over
`reqs["ops"]` (a missing `ops` key raises `KeyError` and a non-list
value raises when iterated — both land in the `except` arm); any other
version falls through to the `Missing or invalid api version` response.
-/
def process_requests {σ : Type} (jump : String → Option (Handler σ))
    (reqs : List (String × PyVal)) (s : σ) : σ × PyVal :=
  let request_id := lookupStr reqs "request-id"
  let version := lookupStr reqs "api-version"
  match version with
  | some (PyVal.int 1) =>
    match lookupStr reqs "ops" with
    | some (PyVal.list ops) =>
      let out := process_requests_v1 jump ops s
      match out.result with
      | Except.ok resp => (out.state, addReqId resp request_id)
      | Except.error _ => (out.state, exceptionResp reqs)
    | some _ => (s, exceptionResp reqs)
    | Option.none => (s, exceptionResp reqs)
  | _ =>
    (s, addReqId
      (PyVal.dict
        [("exit-code", PyVal.int 1),
         ("stderr", PyVal.str
           ("Missing or invalid api version (" ++ pyFmtOpt version ++ ")"))])
      request_id)

/-! ## PG calculator (`ceph.BasePool.get_pgs`) -/

/-- `ceph.DEFAULT_PGS_PER_OSD_TARGET`. -/
def DEFAULT_PGS_PER_OSD_TARGET : Int := 100

/-- `ceph.DEFAULT_POOL_WEIGHT`. -/
def DEFAULT_POOL_WEIGHT : ℚ := 10

/-- `ceph.LEGACY_PG_COUNT`. -/
def LEGACY_PG_COUNT : Int := 200

/-- `ceph.DEFAULT_MINIMUM_PGS`. -/
def DEFAULT_MINIMUM_PGS : Int := 2

/-- `ceph.AUTOSCALER_DEFAULT_PGS`. -/
def AUTOSCALER_DEFAULT_PGS : Int := 32

/-- `ceph.config`: "This function is not implemented yet and returns
None."  Every charm-config lookup in `ceph.py` therefore yields `None`.
-/
def config (_param : String) : Option Int := Option.none

/-- Largest power of two that is `≤ n` (for `n ≥ 1`), written with an
explicit fuel argument so that it is structurally recursive and reduces
inside the kernel. -/
def lp2Fuel : Nat → Nat → Nat
  | 0, _ => 1
  | fuel + 1, n => if n < 2 then 1 else 2 * lp2Fuel fuel (n / 2)

/-- `2 ** math.floor(math.log(n, 2))` for an integer `n ≥ 1`, i.e. the
largest power of two `≤ n` (the float `math.log` is modelled as the
exact real logarithm). -/
def largestPow2Le (n : Nat) : Nat := lp2Fuel n n

/-- `ceph.BasePool.get_pgs`, embedded over exact rationals.

Inputs mirror the data the Python method draws on: `osd_list` is the
result of `get_osds(self.service, device_class)`, `device_class` and
`pool_size` are the method arguments, and `percent_data` is the
`percent_data` argument (`Option.none` models Python `None`, which the
method replaces by `DEFAULT_POOL_WEIGHT`).  `config` returns `None` for
both `"expected-osd-count"` and `"pgs-per-osd"` (see `config` above), so
`expected = 0` and the target is `DEFAULT_PGS_PER_OSD_TARGET`; the
`elif expected:` branch of the source is kept but is unreachable.
Python's float floor division `//` is modelled as `Int.floor` of the
exact quotient (division by `pool_size = 0` raises in Python and is
outside the model). -/
def get_pgs (osd_list : List Nat) (device_class : Option String)
    (pool_size : Int) (percent_data : Option ℚ) : Int :=
  let pd : ℚ :=
    match percent_data with
    | Option.none => DEFAULT_POOL_WEIGHT
    | some q => q
  let expected : Int :=
    match config "expected-osd-count" with
    | some n => n
    | Option.none => 0
  -- `if osd_list: ... elif expected: ... else: return LEGACY_PG_COUNT`
  let osdCount : Option Int :=
    match osd_list with
    | _ :: _ =>
      some (if device_class.isSome then (osd_list.length : Int)
            else max expected (osd_list.length : Int))
    | [] => if expected ≠ 0 then some expected else Option.none
  match osdCount with
  | Option.none => LEGACY_PG_COUNT
  | some osd_count =>
    let pd := pd / 100
    let target : ℚ :=
      match config "pgs-per-osd" with
      | some n => if n = 0 then (DEFAULT_PGS_PER_OSD_TARGET : ℚ) else (n : ℚ)
      | Option.none => (DEFAULT_PGS_PER_OSD_TARGET : ℚ)
    let num_pg : Int := ⌊target * (osd_count : ℚ) * pd / (pool_size : ℚ)⌋
    let num_pg := if num_pg < DEFAULT_MINIMUM_PGS then DEFAULT_MINIMUM_PGS else num_pg
    let nearest : Int := (largestPow2Le num_pg.toNat : Int)
    if ((num_pg : ℚ) - (nearest : ℚ)) > (num_pg : ℚ) * (25 / 100) then nearest * 2
    else nearest

/-- The PG-count postcondition in the words of the specification:
`raw = floor(100 * osd_count * (percent_data/100) / pool_size)`, clamped
up to 2 when `raw < 2`, then rounded to the largest power of two `≤`
that value, except that twice that power is returned when the undershoot
exceeds 25% of the value. -/
def compute_pg_count_spec (pool_size : Int) (osd_count : Int) (percent_data : ℚ) : Int :=
  let raw : Int := ⌊(100 * (osd_count : ℚ) * (percent_data / 100)) / (pool_size : ℚ)⌋
  let v : Int := if raw < 2 then 2 else raw
  let p : Int := (largestPow2Le v.toNat : Int)
  if ((v : ℚ) - (p : ℚ)) > (v : ℚ) * (25 / 100) then p * 2 else p

/-! ## `BasePool.create` at the method level (`ceph.BasePool.create`) -/

/-- State visible to a single pool object's `create` method: the set of
existing RADOS pools plus invocation counters for the four steps
`validate` / `_create` / `_post_create` / `update` that
`BasePool.create` performs. -/
structure PoolSt where
  pools : List String
  validateCalls : Nat
  createCalls : Nat
  postCreateCalls : Nat
  updateCalls : Nat
deriving DecidableEq

/-- `ceph.pool_exists` for a known pool name against the `lspools`
output. -/
def pool_exists (pools : List String) (name : String) : Bool :=
  pools.contains name

/-- `ceph.BasePool.create`:
`if not pool_exists(...): self.validate(); self._create();
self._post_create(); self.update()`.  `_create` issues the storage
`pool create` command, after which the pool exists; each step bumps its
invocation counter.  When the pool already exists the method does
nothing at all. -/
def BasePool.create (name : String) (s : PoolSt) : PoolSt :=
  if pool_exists s.pools name then s
  else
    let s := { s with validateCalls := s.validateCalls + 1 }
    let s := { s with pools := s.pools ++ [name], createCalls := s.createCalls + 1 }
    let s := { s with postCreateCalls := s.postCreateCalls + 1 }
    { s with updateCalls := s.updateCalls + 1 }

/-! ## Group/service ACL store and the create-pool handlers -/

/-- A persisted group record (`ceph_broker.get_group` docstring):
`{pools: [...], services: [...]}`.  Pool and service entries are raw
request values (`request.get("name")` is appended unchanged). -/
structure GroupRec where
  pools : List PyVal
  services : List PyVal

/-- The slice of cluster state the create-pool handlers read and write.
`groupStore` models the monitor config-keys `cephx.groups.<name>`
holding deserialised group records; `profiles` maps an erasure-profile
name to its `(k, m)` chunk counts when both are present (`Option.none`
models a profile whose dump lacks `k` or `m`); `permUpdated`,
`createdPools` and `updatedPools` record, in order, the services whose
capabilities were re-applied (`ceph auth caps`), the pools for which a
storage `pool create` command was issued, and the pools on which the
`update()` method ran. -/
structure World where
  pools : List String
  profiles : List (String × Option (Int × Int))
  groupStore : List (String × GroupRec)
  osds : List Nat
  permUpdated : List PyVal
  createdPools : List String
  updatedPools : List String

/-- `ceph_broker.get_group`: a missing or unparseable key yields the
empty group. -/
def get_group (w : World) (group_name : String) : GroupRec :=
  match lookupStr w.groupStore group_name with
  | some g => g
  | Option.none => ⟨[], []⟩

/-- `ceph_broker.save_group`: persist a group under its monitor key. -/
def save_group (w : World) (group_name : String) (g : GroupRec) : World :=
  { w with groupStore := setKV w.groupStore group_name g }

/-- `ceph_broker.update_service_permissions`: recomputes and re-applies
the capability list for a service via `ceph auth caps` (failures are
logged, not raised).  Modelled as the trace event of issuing the
capability update. -/
def update_service_permissions (w : World) (service : PyVal) : World :=
  { w with permUpdated := w.permUpdated ++ [service] }

/-- `ceph_broker.add_pool_to_group`: resolve the (optionally
namespaced) group name, append the pool if absent, persist the group,
then re-apply capabilities for every service referencing the group. -/
def add_pool_to_group (w : World) (pool : PyVal) (group : PyVal)
    (namespace_ : Option PyVal) : World :=
  let group_name : String :=
    if pyTruthy namespace_ then pyFmtOpt namespace_ ++ "-" ++ pyFmt group
    else pyFmt group
  let g := get_group w group_name
  let g := if pyMem pool g.pools then g else { g with pools := g.pools ++ [pool] }
  let w := save_group w group_name g
  g.services.foldl (fun w svc => update_service_permissions w svc) w

/-- `ceph.erasure_profile_exists`: `validator(value=name, valid_type=str)`
raises `AssertionError` on a non-string name; otherwise the profile
list is consulted. -/
def erasure_profile_exists (w : World) (name : PyVal) : Except String Bool :=
  match name with
  | PyVal.str s => Except.ok (containsKey w.profiles s)
  | _ => Except.error "AssertionError"

/-- `self.percent_data` as initialised by `BasePool.__init__` from an
op: `op.get("weight")`, then `self.percent_data or 10.0` (so `None` and
`0` both fall back to the default).  Non-numeric weights are outside
the model. -/
def percentData (req : List (String × PyVal)) : ℚ :=
  match lookupStr req "weight" with
  | some (PyVal.rat q) => if q = 0 then DEFAULT_POOL_WEIGHT else q
  | some (PyVal.int n) => if n = 0 then DEFAULT_POOL_WEIGHT else (n : ℚ)
  | _ => DEFAULT_POOL_WEIGHT

/-- The `{"exit-code": 1, "stderr": "Missing parameter."}` response the
create-pool handlers build when pool construction raises `KeyError`. -/
def missingParamDict : PyVal :=
  PyVal.dict [("exit-code", PyVal.int 1), ("stderr", PyVal.str "Missing parameter.")]

/-- `ceph.ErasurePool._create`: re-fetch the erasure profile, fail with
`PoolCreationError` if it is gone or lacks `k`/`m`, otherwise size the
pool via `get_pgs(k + m, percent_data)` and issue the storage
`pool create ... erasure <profile>` command. -/
def ErasurePool.createCmd (w : World) (name : String) (profile : String)
    (percent : ℚ) : Except String World :=
  match lookupStr w.profiles profile with
  | Option.none => Except.error "PoolCreationError"
  | some Option.none => Except.error "PoolCreationError"
  | some (some _km) =>
    let km := _km.1 + _km.2
    let _pgs := get_pgs w.osds Option.none km (some percent)
    Except.ok { w with pools := w.pools ++ [name], createdPools := w.createdPools ++ [name] }

/-- `pool.update()` on the World model: quota / compression / size
re-application are external `pool set` commands; the trace records the
invocation. -/
def poolUpdate (w : World) (name : String) : World :=
  { w with updatedPools := w.updatedPools ++ [name] }

/-- The profile-name default of `handle_erasure_pool`:
`request.get("erasure-profile")`, replaced by `"default-canonical"` when
the request carries no profile (or an explicit `None`). -/
def erasureProfileOf (req : List (String × PyVal)) : PyVal :=
  match lookupStr req "erasure-profile" with
  | Option.none => PyVal.str "default-canonical"
  | some PyVal.none => PyVal.str "default-canonical"
  | some v => v

/-- The error response `handle_erasure_pool` returns for a missing
erasure profile (note the double space after `exist.` in the source's
implicitly concatenated string literal). -/
def erasureMissingProfileDict (pn : String) : PyVal :=
  PyVal.dict
    [("exit-code", PyVal.int 1),
     ("stderr", PyVal.str
       ("erasure-profile " ++ pn
        ++ " does not exist.  Please create it with: create-erasure-profile"))]

/-- `ceph_broker.handle_erasure_pool`.

Control flow exactly as in the source: default the profile name to
`"default-canonical"` when the request has no (or a `None`)
`erasure-profile`; if the request names a truthy group, add the pool to
that group (persisting it and re-applying service capabilities) BEFORE
anything else; then check profile existence and abort with the
`erasure-profile ... does not exist` error; then build the
`ErasurePool` (`KeyError` on a missing `name` becomes the
`Missing parameter.` response); then create the pool if absent
(`create()` re-checks existence and ends in `update()`), and finally
run `update()` unconditionally.  A normal completion returns Python
`None`. -/
def handle_erasure_pool (req : List (String × PyVal)) (w : World) :
    World × Except String (Option PyVal) :=
  let pool_name := lookupStr req "name"
  let erasure_profile : PyVal := erasureProfileOf req
  let group_name := lookupStr req "group"
  let w :=
    if pyTruthy group_name then
      add_pool_to_group w ((pool_name).getD PyVal.none)
        ((group_name).getD PyVal.none) (lookupStr req "group-namespace")
    else w
  match erasure_profile_exists w erasure_profile with
  | Except.error e => (w, Except.error e)
  | Except.ok true =>
    -- try: pool = ErasurePool(service=service, op=request)
    match pool_name with
    | Option.none => (w, Except.ok (some missingParamDict))
    | some nameV =>
      let nameStr := pyFmt nameV
      let profStr := pyFmt erasure_profile
      let percent := percentData req
      let existsNow :=
        match nameV with
        | PyVal.str s => pool_exists w.pools s
        | _ => false
      if existsNow then (poolUpdate w nameStr, Except.ok Option.none)
      else
        match ErasurePool.createCmd w nameStr profStr percent with
        | Except.error e => (w, Except.error e)
        | Except.ok w' =>
          -- create() ends in update(); the handler then updates again
          let w' := poolUpdate w' nameStr
          (poolUpdate w' nameStr, Except.ok Option.none)
  | Except.ok false =>
    (w, Except.ok (some (PyVal.dict
      [("exit-code", PyVal.int 1),
       ("stderr", PyVal.str
         ("erasure-profile " ++ pyFmt erasure_profile
          ++ " does not exist.  Please create it with: create-erasure-profile"))])))

/-- `ceph_broker.handle_replicated_pool`.

Mirrors the source: optional `pg_num` capping against the OSD count
(`min(pg_num, len(osds) * 100 // replicas)`, which raises `TypeError` /
`ZeroDivisionError` on non-integer or zero `replicas`); group handling
before pool construction; `ReplicatedPool(op=request)` raising
`KeyError` on a missing `name` or `replicas` key, turned into the
`Missing parameter.` response; then create-if-absent (ending in
`update()`) and a final unconditional `update()`. -/
def handle_replicated_pool (req : List (String × PyVal)) (w : World) :
    World × Except String (Option PyVal) :=
  let pool_name := lookupStr req "name"
  let group_name := lookupStr req "group"
  let pg_num := lookupStr req "pg_num"
  let replicas := lookupStr req "replicas"
  let capped : Except String (List (String × PyVal)) :=
    if pyTruthy pg_num then
      match w.osds with
      | [] => Except.ok req
      | _ :: _ =>
        match pg_num, replicas with
        | some (PyVal.int pg), some (PyVal.int r) =>
          if r = 0 then Except.error "ZeroDivisionError"
          else
            Except.ok (setKV req "pg_num"
              (PyVal.int (min pg (Int.fdiv ((w.osds.length : Int) * 100) r))))
        | _, _ => Except.error "TypeError"
    else Except.ok req
  match capped with
  | Except.error e => (w, Except.error e)
  | Except.ok req' =>
    let w :=
      if pyTruthy group_name then
        add_pool_to_group w (pool_name.getD PyVal.none) (group_name.getD PyVal.none)
          (lookupStr req' "group-namespace")
      else w
    -- try: pool = ReplicatedPool(service=service, op=request)
    if (lookupStr req' "name").isNone || (lookupStr req' "replicas").isNone then
      (w, Except.ok (some missingParamDict))
    else
      let nameStr := pyFmt (pool_name.getD PyVal.none)
      let existsNow :=
        match pool_name with
        | some (PyVal.str s) => pool_exists w.pools s
        | _ => false
      let w :=
        if existsNow then w
        else
          -- pool.create(): `_create` issues the pool create command
          -- (fixed 32 PGs), `_post_create` sets the size, then `update()`
          let w := { w with pools := w.pools ++ [nameStr],
                            createdPools := w.createdPools ++ [nameStr] }
          poolUpdate w nameStr
      (poolUpdate w nameStr, Except.ok Option.none)

/-! ## Capability aggregation (`ceph_broker.pool_permission_list_for_service`) -/

/-- A service record as stored under `cephx.services.<name>` and
resolved by `get_service_groups`: `group_names` maps a permission level
to the group names granted that level (insertion order preserved),
`groups` resolves each referenced group, `object_prefix_perms` maps a
permission level to object-key prefixes. -/
structure ServiceRec where
  group_names : List (String × List String)
  groups : List (String × GroupRec)
  object_prefix_perms : List (String × List String)

/-- Python `sorted(d.items())` for a string-keyed dict (keys are unique,
so the lexicographic key order decides). -/
def sortByKey {α : Type} (l : List (String × α)) : List (String × α) :=
  List.insertionSort (fun a b => a.1 ≤ b.1) l

/-- One step of filling the `permission_types` `OrderedDict`:
`if permission not in permission_types: permission_types[permission] = []`
followed by appending every item of `group`. -/
def odAppend (pt : List (String × List String)) (k : String) (v : List String) :
    List (String × List String) :=
  if containsKey pt k then
    pt.map (fun e => if e.1 = k then (e.1, e.2 ++ v) else e)
  else pt ++ [(k, v)]

/-- The inner loops of `pool_permission_list_for_service`: for each
group granted a permission, every pool of the resolved group record
contributes `"<permStr> pool=<pool>"`.  `service["groups"][group]`
raises `KeyError` when a referenced group is unresolved, modelled as
`Option.none`. -/
def permsOfGroups (groups : List (String × GroupRec)) (permStr : String) :
    List String → Option (List String)
  | [] => some []
  | g :: gs =>
    match lookupStr groups g with
    | Option.none => Option.none
    | some grp =>
      match permsOfGroups groups permStr gs with
      | Option.none => Option.none
      | some rest =>
        some (grp.pools.map (fun pool => permStr ++ " pool=" ++ pyFmt pool) ++ rest)

/-- The outer loop over `permission_types.items()`, prefixing each
level with `"allow "`. -/
def permsOfTypes (groups : List (String × GroupRec)) :
    List (String × List String) → Option (List String)
  | [] => some []
  | (perm, gs) :: rest =>
    match permsOfGroups groups ("allow " ++ perm) gs with
    | Option.none => Option.none
    | some cur =>
      match permsOfTypes groups rest with
      | Option.none => Option.none
      | some r => some (cur ++ r)

/-- The object-prefix loop: levels in sorted order, each prefix as
`"allow <level> object_prefix <prefix>"`. -/
def objectPrefixPerms (opp : List (String × List String)) : List String :=
  (sortByKey opp).foldr
    (fun kv acc => kv.2.map (fun pfx => "allow " ++ kv.1 ++ " object_prefix " ++ pfx) ++ acc) []

/-- The fixed `mon` capability string (the source concatenates two
adjacent string literals). -/
def monCapString : String :=
  "allow r, allow command \"osd blacklist\", allow command \"osd blocklist\""

/-- `ceph_broker.pool_permission_list_for_service`. -/
def pool_permission_list_for_service (svc : ServiceRec) : Option (List String) :=
  let permission_types :=
    (sortByKey svc.group_names).foldl (fun pt kv => odAppend pt kv.1 kv.2) []
  match permsOfTypes svc.groups permission_types with
  | Option.none => Option.none
  | some poolPerms =>
    some ["mon", monCapString, "osd",
          String.intercalate ", " (poolPerms ++ objectPrefixPerms svc.object_prefix_perms)]

/-- The capability list in the words of the specification: permission
levels in sorted order, groups in insertion order, one
`allow <level> pool=<pool>` per pool, then object-prefix permissions
(sorted by level) appended after the pool permissions. -/
def capability_list_spec (svc : ServiceRec) : List String :=
  let poolPerms :=
    (sortByKey svc.group_names).foldr
      (fun kv acc =>
        kv.2.foldr
          (fun g acc2 =>
            (match lookupStr svc.groups g with
             | some grp => grp.pools
             | Option.none => []).map
              (fun pool => "allow " ++ kv.1 ++ " pool=" ++ pyFmt pool) ++ acc2)
          [] ++ acc)
      []
  ["mon", monCapString, "osd",
   String.intercalate ", " (poolPerms ++ objectPrefixPerms svc.object_prefix_perms)]

/-! ## Support definitions for the dispatcher theorems -/

/-- A handler that returns without raising (the shape the v1 loop's
result aggregation is about). -/
def PureHandler (σ : Type) : Type := List (String × PyVal) → σ → σ × PyVal

/-- View a table of non-raising handlers as a table of `Handler`s. -/
def liftJump {σ : Type} (jumpP : String → Option (PureHandler σ)) :
    String → Option (Handler σ) :=
  fun tag => (jumpP tag).map (fun f es s => ((f es s).1, Except.ok (f es s).2))

/-- The `op` tag of an operation, when the operation is a dict whose
`op` value is a string. -/
def opTag (r : PyVal) : Option String :=
  match r with
  | PyVal.dict es =>
    match lookupStr es "op" with
    | some (PyVal.str t) => some t
    | _ => Option.none
  | _ => Option.none

/-- An operation the v1 loop can dispatch: a dict with a string `op`
tag bound in the jump table. -/
def Dispatchable {σ : Type} (jumpP : String → Option (PureHandler σ)) (r : PyVal) : Prop :=
  ∃ es t, r = PyVal.dict es ∧ lookupStr es "op" = some (PyVal.str t) ∧ (jumpP t).isSome

/-- Dispatch a single operation to its (non-raising) handler. -/
def stepPure {σ : Type} (jumpP : String → Option (PureHandler σ)) (r : PyVal) (s : σ) :
    Option (σ × PyVal) :=
  match r with
  | PyVal.dict es =>
    match lookupStr es "op" with
    | some (PyVal.str t) =>
      match jumpP t with
      | some f => some (f es s)
      | Option.none => Option.none
    | _ => Option.none
  | _ => Option.none

/-- Reference fold for the v1 loop on an all-known envelope: thread the
state through every handler in list order, remembering only the LAST
handler's return value (the running `ret` of the source loop). -/
def runAllPure {σ : Type} (jumpP : String → Option (PureHandler σ)) :
    List PyVal → σ → Option PyVal → σ × Option PyVal
  | [], s, ret => (s, ret)
  | r :: rs, s, ret =>
    match stepPure jumpP r s with
    | some (s', v) => runAllPure jumpP rs s' (some v)
    | Option.none => (s, ret)

/-- Read a key out of a (dict) response. -/
def respGet (v : PyVal) (k : String) : Option PyVal :=
  match v with
  | PyVal.dict es => lookupStr es k
  | _ => Option.none

/-- A two-operation demonstration table: `"fail"` answers with an
`exit-code 1` result dict, `"fine"` returns `None`. -/
def demoJump : String → Option (PureHandler Unit) :=
  fun tag =>
    if tag = "fail" then
      some (fun _ _ => ((), PyVal.dict [("exit-code", PyVal.int 1), ("stderr", PyVal.str "boom")]))
    else if tag = "fine" then
      some (fun _ _ => ((), PyVal.none))
    else Option.none

/-- The `"fail"` demonstration operation. -/
def demoFailOp : PyVal := PyVal.dict [("op", PyVal.str "fail")]

/-- The `"fine"` demonstration operation. -/
def demoFineOp : PyVal := PyVal.dict [("op", PyVal.str "fine")]

/-- Interpret every real broker handler as a stateless no-op returning
`None`; only the jump-table keys matter for dispatch questions. -/
def trivialInterp : BrokerOp → Handler Unit :=
  fun _ _ s => (s, Except.ok PyVal.none)

/-- The real jump table as a dispatch function, for a given
interpretation of the sixteen handlers. -/
def realJump {σ : Type} (interp : BrokerOp → Handler σ) : String → Option (Handler σ) :=
  fun tag => (lookupStr brokerJumpTable tag).map interp

/-- An empty cluster state. -/
def world0 : World := ⟨[], [], [], [], [], [], []⟩

/-- A pool-method state with no pools and zeroed counters. -/
def pool0 : PoolSt := ⟨[], 0, 0, 0, 0⟩

/-- A v1 envelope that carries a `request-id` but no `ops` key, so that
`reqs["ops"]` raises `KeyError` inside the `try` of
`process_requests`. -/
def envelopeNoOps : List (String × PyVal) :=
  [("api-version", PyVal.int 1), ("request-id", PyVal.str "2ab0acf4")]

/-- The concrete ACL example service: `group_names={"rwx":["imagegrp"]}`
with group `imagegrp` owning pool `glance` and no object-prefix
permissions. -/
def exampleService : ServiceRec :=
  ⟨[("rwx", ["imagegrp"])], [("imagegrp", ⟨[PyVal.str "glance"], []⟩)], []⟩

/-- Does `needle` occur as a contiguous run of characters inside
`hay`?  Used to state that an error message does (not) name a request
key. -/
def containsSublist (needle : List Char) : List Char → Bool
  | [] => needle.isEmpty
  | c :: rest => needle.isPrefixOf (c :: rest) || containsSublist needle rest

/-- String-level wrapper for `containsSublist`. -/
def strMentions (hay needle : String) : Bool :=
  containsSublist needle.data hay.data

/-! ## Theorems

First the shared helper lemmas, then one theorem per specification
claim (with witness / counterexample theorems where applicable). -/

/-- Helper: the fuelled power-of-two computation meets its
specification once the fuel dominates the argument. -/
theorem lp2Fuel_spec (fuel n : Nat) (hf : n ≤ fuel) (h1 : 1 ≤ n) :
    lp2Fuel fuel n ≤ n ∧ n < 2 * lp2Fuel fuel n ∧ ∃ k, lp2Fuel fuel n = 2 ^ k := by
  induction fuel generalizing n with
  | zero => omega
  | succ f ih =>
    by_cases h2 : n < 2
    · refine ⟨?_, ?_, 0, ?_⟩ <;> simp [lp2Fuel, h2] <;> omega
    · have hrec := ih (n / 2) (by omega) (by omega)
      obtain ⟨hle, hlt, k, hk⟩ := hrec
      refine ⟨?_, ?_, k + 1, ?_⟩
      · simp only [lp2Fuel, if_neg h2]
        omega
      · simp only [lp2Fuel, if_neg h2]
        omega
      · simp only [lp2Fuel, if_neg h2, hk, pow_succ]
        ring

/-- `largestPow2Le n` is a power of two, is at most `n`, and doubling
it overshoots `n`: it is therefore THE largest power of two `≤ n` (any
`2 ^ k ≤ n` satisfies `2 ^ k < 2 * largestPow2Le n = 2 ^ (j + 1)`,
hence `2 ^ k ≤ 2 ^ j = largestPow2Le n`). -/
theorem largestPow2Le_spec (n : Nat) (h1 : 1 ≤ n) :
    largestPow2Le n ≤ n ∧ n < 2 * largestPow2Le n ∧ ∃ k, largestPow2Le n = 2 ^ k :=
  lp2Fuel_spec n n le_rfl h1

theorem processV1Go_all_known {σ : Type} (jumpP : String → Option (PureHandler σ))
    (reqs : List PyVal) :
    ∀ (s : σ) (ret : Option PyVal) (tr : List String),
      (∀ r ∈ reqs, Dispatchable jumpP r) →
      processV1Go (liftJump jumpP) reqs s ret tr =
        ⟨(runAllPure jumpP reqs s ret).1,
         tr.reverse ++ reqs.map (fun r => (opTag r).getD ""),
         Except.ok (finishRet (runAllPure jumpP reqs s ret).2)⟩ := by
  induction reqs with
  | nil => intro s ret tr _; simp [processV1Go, runAllPure]
  | cons r rs ih =>
    intro s ret tr hall
    obtain ⟨es, t, rfl, hlk, hsome⟩ := hall r (by simp)
    obtain ⟨f, hf⟩ := Option.isSome_iff_exists.mp hsome
    have hlift : liftJump jumpP t = some (fun es s => ((f es s).1, Except.ok (f es s).2)) := by
      simp [liftJump, hf]
    simp only [processV1Go, hlk, hlift]
    have hstep : stepPure jumpP (PyVal.dict es) s = some (f es s) := by
      simp [stepPure, hlk, hf]
    rw [ih (f es s).1 (some (f es s).2) (t :: tr) (fun x hx => hall x (by simp [hx]))]
    simp [runAllPure, hstep, opTag, hlk]

theorem processV1Go_unknown {σ : Type} (jumpP : String → Option (PureHandler σ))
    (pre : List PyVal) (es : List (String × PyVal)) (tag : String) (post : List PyVal) :
    ∀ (s : σ) (ret : Option PyVal) (tr : List String),
      (∀ r ∈ pre, Dispatchable jumpP r) →
      lookupStr es "op" = some (PyVal.str tag) →
      jumpP tag = Option.none →
      processV1Go (liftJump jumpP) (pre ++ PyVal.dict es :: post) s ret tr =
        ⟨(runAllPure jumpP pre s ret).1,
         tr.reverse ++ pre.map (fun r => (opTag r).getD ""),
         Except.ok (PyVal.dict
           [("exit-code", PyVal.int 1),
            ("stderr", PyVal.str ("Unknown operation '" ++ tag ++ "'"))])⟩ := by
  induction pre with
  | nil =>
    intro s ret tr _ hlk hnone
    simp [processV1Go, hlk, liftJump, hnone, runAllPure]
  | cons r rs ih =>
    intro s ret tr hall hlk hnone
    obtain ⟨es', t, rfl, hlk', hsome⟩ := hall r (by simp)
    obtain ⟨f, hf⟩ := Option.isSome_iff_exists.mp hsome
    have hlift : liftJump jumpP t = some (fun es s => ((f es s).1, Except.ok (f es s).2)) := by
      simp [liftJump, hf]
    have hstep : stepPure jumpP (PyVal.dict es') s = some (f es' s) := by
      simp [stepPure, hlk', hf]
    simp only [List.cons_append, processV1Go, hlk', hlift, List.append_eq]
    rw [ih (f es' s).1 (some (f es' s).2) (t :: tr) (fun x hx => hall x (by simp [hx])) hlk hnone]
    simp [runAllPure, hstep, opTag, hlk']

theorem lookupStr_setKV_self {α : Type} (es : List (String × α)) (k : String) (v : α) :
    lookupStr (setKV es k v) k = some v := by
  induction es with
  | nil => simp [setKV, containsKey, lookupStr]
  | cons e rest ih =>
    obtain ⟨k', v'⟩ := e
    by_cases hk : k' = k
    · subst hk
      have hc : containsKey ((k', v') :: rest) k' = true := by
        simp [containsKey, lookupStr]
      rw [setKV, if_pos hc, List.map_cons,
        show (if (k', v').1 = k' then ((k', v').1, v) else (k', v')) = (k', v) from by simp]
      simp [lookupStr]
    · by_cases hcr : containsKey rest k = true
      · have hc : containsKey ((k', v') :: rest) k = true := by
          simpa [containsKey, lookupStr, hk] using hcr
        rw [setKV, if_pos hc, List.map_cons,
          show (if (k', v').1 = k then ((k', v').1, v) else (k', v')) = (k', v') from by
            simp [hk]]
        have hrest := ih
        rw [setKV, if_pos hcr] at hrest
        simpa [lookupStr, hk] using hrest
      · have hc : ¬ containsKey ((k', v') :: rest) k = true := by
          simpa [containsKey, lookupStr, hk] using hcr
        rw [setKV, if_neg hc]
        have hrest := ih
        rw [setKV, if_neg hcr] at hrest
        simpa [lookupStr, hk] using hrest

theorem v1_ok_result_is_dict {σ : Type} (jump : String → Option (Handler σ))
    (reqs : List PyVal) :
    ∀ (s : σ) (ret : Option PyVal) (tr : List String) (r : PyVal),
      (processV1Go jump reqs s ret tr).result = Except.ok r → ∃ es, r = PyVal.dict es := by
  induction reqs with
  | nil =>
    intro s ret tr r h
    simp only [processV1Go] at h
    cases h
    cases ret with
    | none => exact ⟨_, rfl⟩
    | some v =>
      cases v with
      | dict es => simp only [finishRet]; split <;> exact ⟨_, rfl⟩
      | _ => exact ⟨_, rfl⟩
  | cons req rest ih =>
    intro s ret tr r h
    simp only [processV1Go] at h
    split at h
    · split at h
      · split at h
        · cases h; exact ⟨_, rfl⟩
        · split at h
          · exact ih _ _ _ _ h
          · cases h
      · cases h; exact ⟨_, rfl⟩
    · cases h

theorem respGet_addReqId (es : List (String × PyVal)) (rid : PyVal)
    (h : pyTruthy (some rid) = true) :
    respGet (addReqId (PyVal.dict es) (some rid)) "request-id" = some rid := by
  simp [addReqId, h, respGet, lookupStr_setKV_self]

theorem foldl_update_perms (services : List PyVal) :
    ∀ (w : World),
      (services.foldl (fun w svc => update_service_permissions w svc) w).pools = w.pools
      ∧ (services.foldl (fun w svc => update_service_permissions w svc) w).profiles = w.profiles
      ∧ (services.foldl (fun w svc => update_service_permissions w svc) w).groupStore
          = w.groupStore
      ∧ (services.foldl (fun w svc => update_service_permissions w svc) w).osds = w.osds
      ∧ (services.foldl (fun w svc => update_service_permissions w svc) w).createdPools
          = w.createdPools
      ∧ (services.foldl (fun w svc => update_service_permissions w svc) w).updatedPools
          = w.updatedPools
      ∧ (services.foldl (fun w svc => update_service_permissions w svc) w).permUpdated
          = w.permUpdated ++ services := by
  induction services with
  | nil => intro w; simp
  | cons svc rest ih =>
    intro w
    have h := ih (update_service_permissions w svc)
    simp only [List.foldl_cons]
    refine ⟨h.1, h.2.1, h.2.2.1, h.2.2.2.1, h.2.2.2.2.1, h.2.2.2.2.2.1, ?_⟩
    rw [h.2.2.2.2.2.2]
    simp [update_service_permissions]

theorem add_pool_to_group_fields (w : World) (pool group : PyVal) (ns : Option PyVal) :
    (add_pool_to_group w pool group ns).pools = w.pools
    ∧ (add_pool_to_group w pool group ns).profiles = w.profiles
    ∧ (add_pool_to_group w pool group ns).osds = w.osds
    ∧ (add_pool_to_group w pool group ns).createdPools = w.createdPools
    ∧ (add_pool_to_group w pool group ns).updatedPools = w.updatedPools := by
  unfold add_pool_to_group
  have h := foldl_update_perms
    (if pyMem pool (get_group w (if pyTruthy ns then pyFmtOpt ns ++ "-" ++ pyFmt group
        else pyFmt group)).pools then
      get_group w (if pyTruthy ns then pyFmtOpt ns ++ "-" ++ pyFmt group else pyFmt group)
     else
      { get_group w (if pyTruthy ns then pyFmtOpt ns ++ "-" ++ pyFmt group else pyFmt group) with
        pools := (get_group w (if pyTruthy ns then pyFmtOpt ns ++ "-" ++ pyFmt group
          else pyFmt group)).pools ++ [pool] }).services
  exact ⟨by rw [(h _).1]; rfl, by rw [(h _).2.1]; rfl, by rw [(h _).2.2.2.1]; rfl,
         by rw [(h _).2.2.2.2.1]; rfl, by rw [(h _).2.2.2.2.2.1]; rfl⟩

theorem lookupStr_isSome_iff {α : Type} (l : List (String × α)) (key : String) :
    (lookupStr l key).isSome = true ↔ key ∈ l.map Prod.fst := by
  induction l with
  | nil => simp [lookupStr]
  | cons e rest ih =>
    obtain ⟨k, v⟩ := e
    by_cases hk : k = key
    · subst hk; simp [lookupStr]
    · simp only [lookupStr, if_neg hk, List.map_cons, List.mem_cons]
      rw [ih]
      constructor
      · exact fun h => Or.inr h
      · rintro (h | h)
        · exact absurd h.symm hk
        · exact h

theorem odFold_nodup (l : List (String × List String)) :
    ∀ acc : List (String × List String),
      ((acc ++ l).map Prod.fst).Nodup →
      l.foldl (fun pt kv => odAppend pt kv.1 kv.2) acc = acc ++ l := by
  induction l with
  | nil => intro acc _; simp
  | cons kv rest ih =>
    intro acc h
    obtain ⟨k, v⟩ := kv
    have hknotin : ¬ k ∈ acc.map Prod.fst := by
      intro hmem
      simp only [List.map_append, List.nodup_append, List.map_cons] at h
      exact h.2.2 hmem (by simp)
    have hck : containsKey acc k = false := by
      rw [← Bool.not_eq_true, containsKey]
      rw [lookupStr_isSome_iff]
      exact hknotin
    simp only [List.foldl_cons]
    rw [show odAppend acc k v = acc ++ [(k, v)] from by
      rw [odAppend, if_neg (by rw [hck]; exact Bool.false_ne_true)]]
    rw [ih (acc ++ [(k, v)]) (by simpa using h)]
    simp

theorem permsOfGroups_eq (groups : List (String × GroupRec)) (permStr : String)
    (gs : List String) (hcl : ∀ g ∈ gs, (lookupStr groups g).isSome = true) :
    permsOfGroups groups permStr gs
      = some (gs.foldr (fun g acc2 =>
          (match lookupStr groups g with
           | some grp => grp.pools
           | Option.none => []).map (fun pool => permStr ++ " pool=" ++ pyFmt pool) ++ acc2)
          []) := by
  induction gs with
  | nil => rfl
  | cons g rest ih =>
    obtain ⟨grp, hgrp⟩ := Option.isSome_iff_exists.mp (hcl g (by simp))
    simp only [permsOfGroups, hgrp, List.foldr_cons]
    rw [ih (fun x hx => hcl x (by simp [hx]))]

theorem permsOfTypes_eq (groups : List (String × GroupRec))
    (items : List (String × List String))
    (hcl : ∀ kv ∈ items, ∀ g ∈ kv.2, (lookupStr groups g).isSome = true) :
    permsOfTypes groups items
      = some (items.foldr (fun kv acc =>
          kv.2.foldr (fun g acc2 =>
            (match lookupStr groups g with
             | some grp => grp.pools
             | Option.none => []).map
              (fun pool => "allow " ++ kv.1 ++ " pool=" ++ pyFmt pool) ++ acc2)
            [] ++ acc)
          []) := by
  induction items with
  | nil => rfl
  | cons kv rest ih =>
    obtain ⟨perm, gs⟩ := kv
    simp only [permsOfTypes, List.foldr_cons]
    rw [permsOfGroups_eq groups ("allow " ++ perm) gs
      (fun g hg => hcl (perm, gs) (by simp) g hg)]
    rw [ih (fun kv2 hkv2 => hcl kv2 (by simp [hkv2]))]

/-- Claim C1: for `BasePool.get_pgs` with integer `pool_size > 0`, at
least one discoverable OSD, and no device-class or expected-count
override, the result equals
`raw = floor(100 * osd_count * (percent_data/100) / pool_size)`,
clamped up to 2 when `raw < 2`, then rounded to the largest power of
two `≤` that value, except that twice that power is returned when the
undershoot exceeds 25% of the value; in particular `pool_size = 3`,
9 OSDs, `percent_data = 10` yields 32, and with no discoverable OSD
(and no expected-count override, which this charm's nullified `config`
never supplies) the result is exactly 200. -/

theorem get_pgs_postcondition :
    (∀ (osd_list : List Nat) (ps : Int) (pd : ℚ), osd_list ≠ [] → 0 < ps →
        get_pgs osd_list Option.none ps (some pd) = compute_pg_count_spec ps osd_list.length pd)
    ∧ get_pgs [0, 1, 2, 3, 4, 5, 6, 7, 8] Option.none 3 (some 10) = 32
    ∧ (∀ (dc : Option String) (ps : Int) (pd : Option ℚ), get_pgs [] dc ps pd = 200) := by
  refine ⟨?_, ?_, ?_⟩
  · intro osd_list ps pd hne hps
    obtain ⟨o, os, rfl⟩ : ∃ o os, osd_list = o :: os := by
      cases osd_list with
      | nil => exact absurd rfl hne
      | cons o os => exact ⟨o, os, rfl⟩
    unfold get_pgs compute_pg_count_spec
    simp only [config, DEFAULT_PGS_PER_OSD_TARGET, DEFAULT_MINIMUM_PGS]
    rw [max_eq_right (by positivity : (0 : Int) ≤ ((o :: os).length : Int))]
    rfl
  · unfold get_pgs
    norm_num [config, DEFAULT_PGS_PER_OSD_TARGET, DEFAULT_MINIMUM_PGS]
    rw [show ((30 : Int).toNat) = 30 from rfl, show largestPow2Le 30 = 16 from by decide]
    norm_num
  · intro dc ps pd
    unfold get_pgs
    norm_num [config, LEGACY_PG_COUNT]


/-- Claim C1 witness: the general postcondition applied at the concrete
determinism example. -/

theorem get_pgs_postcondition_witness :
    ([0, 1, 2, 3, 4, 5, 6, 7, 8] : List Nat) ≠ [] ∧ (0 : Int) < 3
    ∧ get_pgs [0, 1, 2, 3, 4, 5, 6, 7, 8] Option.none 3 (some 10)
        = compute_pg_count_spec 3 9 10 :=
  ⟨by decide, by decide,
   get_pgs_postcondition.1 [0, 1, 2, 3, 4, 5, 6, 7, 8] 3 10 (by decide) (by decide)⟩

/-- Claim C2: for every api-version-1 envelope all of whose operation
tags are known, `process_requests_v1` dispatches every operation in
list order (even when an earlier handler returns a result dict with
exit-code 1), and the envelope result is determined solely by the last
handler's return value: that dict if it is a dict containing an
`exit-code` key, otherwise `{"exit-code": 0}` (`finishRet` of the final
running `ret`). -/

theorem v1_executes_all_and_keeps_last :
    ∀ (σ : Type) (jumpP : String → Option (PureHandler σ)) (reqs : List PyVal) (s : σ),
      (∀ r ∈ reqs, Dispatchable jumpP r) →
      (process_requests_v1 (liftJump jumpP) reqs s).dispatched
          = reqs.map (fun r => (opTag r).getD "")
        ∧ (process_requests_v1 (liftJump jumpP) reqs s).result
          = Except.ok (finishRet (runAllPure jumpP reqs s Option.none).2)
        ∧ (process_requests_v1 (liftJump jumpP) reqs s).state
          = (runAllPure jumpP reqs s Option.none).1 := by
  intro σ jumpP reqs s hall
  rw [process_requests_v1, processV1Go_all_known jumpP reqs s Option.none [] hall]
  simp


/-- Claim C2 witness: a two-operation envelope whose first handler
answers with exit-code 1 and whose last returns `None` still executes
both operations and reports `{"exit-code": 0}`. -/

theorem v1_executes_all_witness :
    (∀ r ∈ [demoFailOp, demoFineOp], Dispatchable demoJump r)
    ∧ (process_requests_v1 (liftJump demoJump) [demoFailOp, demoFineOp] ()).dispatched
        = ["fail", "fine"]
    ∧ (process_requests_v1 (liftJump demoJump) [demoFailOp, demoFineOp] ()).result
        = Except.ok (PyVal.dict [("exit-code", PyVal.int 0)]) := by
  have hall : ∀ r ∈ [demoFailOp, demoFineOp], Dispatchable demoJump r := by
    intro r hr
    rcases List.mem_cons.mp hr with rfl | hr
    · exact ⟨[("op", PyVal.str "fail")], "fail", rfl, rfl, rfl⟩
    rcases List.mem_cons.mp hr with rfl | hr
    · exact ⟨[("op", PyVal.str "fine")], "fine", rfl, rfl, rfl⟩
    exact absurd hr (List.not_mem_nil r)
  have h := v1_executes_all_and_keeps_last Unit demoJump [demoFailOp, demoFineOp] () hall
  refine ⟨hall, ?_, ?_⟩
  · rw [h.1]; rfl
  · rw [h.2.1]; rfl


/-- Claim C3: if some operation's tag is not in the handler table,
processing aborts at that operation: only the operations before it are
dispatched, nothing after it executes, and the whole envelope's result
is `{"exit-code": 1, "stderr": "Unknown operation '<tag>'"}`. -/

theorem v1_unknown_op_aborts :
    ∀ (σ : Type) (jumpP : String → Option (PureHandler σ)) (pre : List PyVal)
      (es : List (String × PyVal)) (tag : String) (post : List PyVal) (s : σ),
      (∀ r ∈ pre, Dispatchable jumpP r) →
      lookupStr es "op" = some (PyVal.str tag) →
      jumpP tag = Option.none →
      process_requests_v1 (liftJump jumpP) (pre ++ PyVal.dict es :: post) s =
        ⟨(runAllPure jumpP pre s Option.none).1,
         pre.map (fun r => (opTag r).getD ""),
         Except.ok (PyVal.dict
           [("exit-code", PyVal.int 1),
            ("stderr", PyVal.str ("Unknown operation '" ++ tag ++ "'"))])⟩ := by
  intro σ jumpP pre es tag post s hall hlk hnone
  rw [process_requests_v1, processV1Go_unknown jumpP pre es tag post s Option.none [] hall hlk hnone]
  simp


/-- Claim C3 witness: `[fail, bogus, fine]` dispatches only `fail` and
aborts with the unknown-operation error naming `bogus`. -/

theorem v1_unknown_op_aborts_witness :
    process_requests_v1 (liftJump demoJump)
        [demoFailOp, PyVal.dict [("op", PyVal.str "bogus")], demoFineOp] () =
      ⟨(), ["fail"],
       Except.ok (PyVal.dict
         [("exit-code", PyVal.int 1),
          ("stderr", PyVal.str "Unknown operation 'bogus'")])⟩ := by
  have hall : ∀ r ∈ [demoFailOp], Dispatchable demoJump r := by
    intro r hr
    rcases List.mem_cons.mp hr with rfl | hr
    · exact ⟨[("op", PyVal.str "fail")], "fail", rfl, rfl, rfl⟩
    exact absurd hr (List.not_mem_nil r)
  have h := v1_unknown_op_aborts Unit demoJump [demoFailOp]
    [("op", PyVal.str "bogus")] "bogus" [demoFineOp] () hall rfl rfl
  rw [show ([demoFailOp, PyVal.dict [("op", PyVal.str "bogus")], demoFineOp] : List PyVal)
        = [demoFailOp] ++ PyVal.dict [("op", PyVal.str "bogus")] :: [demoFineOp] from rfl, h]
  rfl


/-- Claim C7 (code bug): the spec lists `rgw-regionmap-default` as a
known operation tag, but the source jump table binds the regionmap
default handler under the misspelt key `reg-regionmap-default`; an
envelope using the documented tag is therefore aborted with the
`Unknown operation` error instead of being dispatched to
`handle_rgw_regionmap_default`. -/

theorem rgw_regionmap_default_tag_is_unknown :
    lookupStr brokerJumpTable "rgw-regionmap-default" = Option.none
    ∧ lookupStr brokerJumpTable "reg-regionmap-default" = some BrokerOp.handleRgwRegionmapDefault
    ∧ (process_requests_v1 (realJump trivialInterp)
         [PyVal.dict [("op", PyVal.str "rgw-regionmap-default")]] ()).result
        = Except.ok (PyVal.dict
            [("exit-code", PyVal.int 1),
             ("stderr", PyVal.str "Unknown operation 'rgw-regionmap-default'")]) := by
  refine ⟨rfl, rfl, rfl⟩

/-- Claim C4: `pool_permission_list_for_service` iterates permission
levels in sorted order, groups in insertion order, and appends
object-prefix permissions after the pool permissions (sorted by
level); for the example service
(`group_names = {"rwx": ["imagegrp"]}`, group `imagegrp` owning pool
`glance`) the result is exactly the four-element list
`["mon", "allow r, allow command \"osd blacklist\", allow command
\"osd blocklist\"", "osd", "allow rwx pool=glance"]`. -/

theorem acl_capability_list :
    (∀ (svc : ServiceRec),
        (svc.group_names.map Prod.fst).Nodup →
        (∀ kv ∈ svc.group_names, ∀ g ∈ kv.2, (lookupStr svc.groups g).isSome = true) →
        pool_permission_list_for_service svc = some (capability_list_spec svc))
    ∧ pool_permission_list_for_service exampleService
        = some ["mon",
                "allow r, allow command \"osd blacklist\", allow command \"osd blocklist\"",
                "osd", "allow rwx pool=glance"] := by
  constructor
  · intro svc hnd hcl
    have hperm : List.Perm (sortByKey svc.group_names) svc.group_names :=
      List.perm_insertionSort _ svc.group_names
    have hpermkeys : List.Perm ((sortByKey svc.group_names).map Prod.fst)
        (svc.group_names.map Prod.fst) :=
      hperm.map Prod.fst
    have hsortnd : ((sortByKey svc.group_names).map Prod.fst).Nodup :=
      hpermkeys.nodup_iff.mpr hnd
    have hfold : (sortByKey svc.group_names).foldl (fun pt kv => odAppend pt kv.1 kv.2) []
        = sortByKey svc.group_names := by
      have := odFold_nodup (sortByKey svc.group_names) []
      simpa using this (by simpa using hsortnd)
    have hclS : ∀ kv ∈ sortByKey svc.group_names, ∀ g ∈ kv.2,
        (lookupStr svc.groups g).isSome = true :=
      fun kv hkv g hg => hcl kv (hperm.mem_iff.mp hkv) g hg
    rw [pool_permission_list_for_service]
    rw [hfold, permsOfTypes_eq svc.groups (sortByKey svc.group_names) hclS]
    rfl
  · rfl


/-- Claim C4 witness: the general ordering statement applied at the
example service, its hypotheses (unique permission levels and resolved
groups) discharged concretely. -/
theorem acl_capability_list_witness :
    (exampleService.group_names.map Prod.fst).Nodup
    ∧ pool_permission_list_for_service exampleService
        = some (capability_list_spec exampleService) := by
  have hnd : (exampleService.group_names.map Prod.fst).Nodup := by simp [exampleService]
  have hcl : ∀ kv ∈ exampleService.group_names, ∀ g ∈ kv.2,
      (lookupStr exampleService.groups g).isSome = true := by
    intro kv hkv g hg
    rcases List.mem_cons.mp hkv with rfl | h
    · rcases List.mem_cons.mp hg with rfl | h2
      · rfl
      · exact absurd h2 (List.not_mem_nil _)
    · exact absurd h (List.not_mem_nil _)
  exact ⟨hnd, acl_capability_list.1 exampleService hnd hcl⟩

/-- Claim C5 counterexample: two `BasePool.create()` calls for the same
absent pool perform exactly one `_create` and exactly ONE `update`
invocation — not two as claimed: the second call short-circuits on the
existence check without reaching `update()`. -/

theorem pool_create_twice_counterexample :
    (BasePool.create "mypool" (BasePool.create "mypool" pool0)).createCalls = 1
    ∧ (BasePool.create "mypool" (BasePool.create "mypool" pool0)).updateCalls = 1
    ∧ ¬ ((BasePool.create "mypool" (BasePool.create "mypool" pool0)).createCalls = 1
         ∧ (BasePool.create "mypool" (BasePool.create "mypool" pool0)).updateCalls = 2) := by
  refine ⟨rfl, rfl, ?_⟩
  intro hcon
  have h1 : (BasePool.create "mypool" (BasePool.create "mypool" pool0)).updateCalls = 1 := rfl
  rw [h1] at hcon
  exact absurd hcon.2 (by decide)


/-- Claim C5 amended: calling `BasePool.create()` twice for the same
pool name (absent before the first call) results in exactly one
`_create` invocation and exactly one `update` invocation in total; the
second call is a complete no-op. -/

theorem pool_create_twice_amended :
    ∀ (s : PoolSt) (name : String), pool_exists s.pools name = false →
      (BasePool.create name (BasePool.create name s)).createCalls = s.createCalls + 1
      ∧ (BasePool.create name (BasePool.create name s)).updateCalls = s.updateCalls + 1 := by
  intro s name h
  have hs1 : BasePool.create name s =
      { s with pools := s.pools ++ [name],
               validateCalls := s.validateCalls + 1,
               createCalls := s.createCalls + 1,
               postCreateCalls := s.postCreateCalls + 1,
               updateCalls := s.updateCalls + 1 } := by
    rw [BasePool.create, if_neg (by rw [h]; exact Bool.false_ne_true)]
  rw [BasePool.create, hs1, if_pos (by simp [pool_exists])]
  exact ⟨rfl, rfl⟩


/-- Claim C5 witness: the amended count at the empty starting state. -/

theorem pool_create_twice_amended_witness :
    pool_exists pool0.pools "mypool" = false
    ∧ (BasePool.create "mypool" (BasePool.create "mypool" pool0)).createCalls
        = pool0.createCalls + 1
    ∧ (BasePool.create "mypool" (BasePool.create "mypool" pool0)).updateCalls
        = pool0.updateCalls + 1 :=
  ⟨rfl, (pool_create_twice_amended pool0 "mypool" rfl).1,
   (pool_create_twice_amended pool0 "mypool" rfl).2⟩

/-- Claim C6: a create-pool operation with pool-type erasure whose
(possibly defaulted) erasure profile does not exist returns
`{"exit-code": 1, "stderr": "erasure-profile <name> does not exist.
Please create it with: create-erasure-profile"}` and never issues the
pool-create storage command. -/

theorem erasure_pool_missing_profile :
    ∀ (req : List (String × PyVal)) (w : World) (pn : String),
      erasureProfileOf req = PyVal.str pn →
      containsKey w.profiles pn = false →
      (handle_erasure_pool req w).2
          = Except.ok (some (erasureMissingProfileDict pn))
      ∧ (handle_erasure_pool req w).1.createdPools = w.createdPools := by
  intro req w pn hprof hmiss
  simp only [handle_erasure_pool, hprof]
  by_cases hg : pyTruthy (lookupStr req "group") = true
  · simp only [hg, if_true]
    set w1 := add_pool_to_group w ((lookupStr req "name").getD PyVal.none)
      ((lookupStr req "group").getD PyVal.none) (lookupStr req "group-namespace") with hw1
    have hfields := add_pool_to_group_fields w ((lookupStr req "name").getD PyVal.none)
      ((lookupStr req "group").getD PyVal.none) (lookupStr req "group-namespace")
    have hpe : erasure_profile_exists w1 (PyVal.str pn) = Except.ok false := by
      show Except.ok (containsKey w1.profiles pn) = Except.ok false
      rw [hw1, hfields.2.1, hmiss]
    rw [hpe]
    refine ⟨rfl, ?_⟩
    show w1.createdPools = w.createdPools
    rw [hw1]
    exact hfields.2.2.2.1
  · simp only [hg, if_false, Bool.not_eq_true] at *
    simp only [hg, Bool.false_eq_true, if_false]
    have hpe : erasure_profile_exists w (PyVal.str pn) = Except.ok false := by
      show Except.ok (containsKey w.profiles pn) = Except.ok false
      rw [hmiss]
    rw [hpe]
    exact ⟨rfl, rfl⟩


/-- Claim C6 witness: a request with no `erasure-profile` key against
an empty cluster fails on the defaulted `default-canonical` profile
without creating a pool. -/

theorem erasure_pool_missing_profile_witness :
    erasureProfileOf [("name", PyVal.str "mypool")] = PyVal.str "default-canonical"
    ∧ containsKey world0.profiles "default-canonical" = false
    ∧ (handle_erasure_pool [("name", PyVal.str "mypool")] world0).2
        = Except.ok (some (erasureMissingProfileDict "default-canonical"))
    ∧ (handle_erasure_pool [("name", PyVal.str "mypool")] world0).1.createdPools
        = world0.createdPools :=
  ⟨rfl, rfl,
   (erasure_pool_missing_profile [("name", PyVal.str "mypool")] world0
     "default-canonical" rfl rfl).1,
   (erasure_pool_missing_profile [("name", PyVal.str "mypool")] world0
     "default-canonical" rfl rfl).2⟩


/-- Claim C10: when an erasure create-pool request names a group and
its erasure profile does not exist, `handle_erasure_pool` first adds
the pool to the persisted group (saving the group and re-applying
capabilities for every service referencing it) and only afterwards
fails with the missing-profile error: the group mutation persists in
the returned state even though the operation reports exit-code 1, and
no pool-create command is issued. -/

theorem erasure_pool_group_mutation_persists :
    ∀ (req : List (String × PyVal)) (w : World) (g pn : String),
      lookupStr req "group" = some (PyVal.str g) →
      g ≠ "" →
      lookupStr req "group-namespace" = Option.none →
      erasureProfileOf req = PyVal.str pn →
      containsKey w.profiles pn = false →
      (handle_erasure_pool req w).2 = Except.ok (some (erasureMissingProfileDict pn))
      ∧ lookupStr (handle_erasure_pool req w).1.groupStore g
          = some (if pyMem ((lookupStr req "name").getD PyVal.none) (get_group w g).pools
                  then get_group w g
                  else { get_group w g with
                         pools := (get_group w g).pools
                           ++ [(lookupStr req "name").getD PyVal.none] })
      ∧ (handle_erasure_pool req w).1.permUpdated
          = w.permUpdated ++ (get_group w g).services
      ∧ (handle_erasure_pool req w).1.createdPools = w.createdPools := by
  intro req w g pn hgrp hne hns hprof hmiss
  have hg2 : pyTruthy (some (PyVal.str g)) = true := by
    simpa [pyTruthy] using hne
  simp only [handle_erasure_pool, hprof, hgrp, hns, hg2, if_true, Option.getD_some]
  set p := (lookupStr req "name").getD PyVal.none with hp
  set g0 := get_group w g with hg0
  set newG := (if pyMem p g0.pools then g0 else { g0 with pools := g0.pools ++ [p] }) with hnewG
  have hsvc : newG.services = g0.services := by
    by_cases hm : pyMem p g0.pools = true <;> simp [hnewG, hm]
  have hadd : add_pool_to_group w p (PyVal.str g) Option.none
      = newG.services.foldl (fun w svc => update_service_permissions w svc)
          (save_group w g newG) := rfl
  set w1 := add_pool_to_group w p (PyVal.str g) Option.none with hw1
  have hfold := foldl_update_perms newG.services (save_group w g newG)
  have hprofiles : w1.profiles = w.profiles := by
    rw [hadd, hfold.2.1]
    rfl
  have hpe : erasure_profile_exists w1 (PyVal.str pn) = Except.ok false := by
    show Except.ok (containsKey w1.profiles pn) = Except.ok false
    rw [hprofiles, hmiss]
  rw [hpe]
  refine ⟨rfl, ?_, ?_, ?_⟩
  · show lookupStr w1.groupStore g = some newG
    rw [hadd, hfold.2.2.1]
    show lookupStr (setKV w.groupStore g newG) g = some newG
    exact lookupStr_setKV_self w.groupStore g newG
  · show w1.permUpdated = w.permUpdated ++ g0.services
    rw [hadd, hfold.2.2.2.2.2.2, hsvc]
    rfl
  · show w1.createdPools = w.createdPools
    rw [hadd, hfold.2.2.2.2.1]
    rfl


/-- Claim C10 witness: a concrete request with group `imagegrp`
against the empty cluster persists `mypool` into the group while
returning the missing-profile error. -/

theorem erasure_pool_group_mutation_witness :
    lookupStr [("name", PyVal.str "mypool"), ("group", PyVal.str "imagegrp")] "group"
        = some (PyVal.str "imagegrp")
    ∧ ("imagegrp" : String) ≠ ""
    ∧ (handle_erasure_pool [("name", PyVal.str "mypool"), ("group", PyVal.str "imagegrp")]
         world0).2 = Except.ok (some (erasureMissingProfileDict "default-canonical"))
    ∧ lookupStr (handle_erasure_pool
         [("name", PyVal.str "mypool"), ("group", PyVal.str "imagegrp")] world0).1.groupStore
         "imagegrp"
        = some { pools := [PyVal.str "mypool"], services := [] } := by
  have h := erasure_pool_group_mutation_persists
    [("name", PyVal.str "mypool"), ("group", PyVal.str "imagegrp")] world0
    "imagegrp" "default-canonical" rfl (by decide) rfl rfl rfl
  exact ⟨rfl, by decide, h.1, h.2.1⟩


/-- Claim C9 counterexample: a create-pool request missing `name` (or
missing `replicas`) yields `{"exit-code": 1, "stderr": "Missing
parameter."}` — the offending key is NOT named in `stderr` (the message
mentions neither `name` nor `replicas`). -/

theorem missing_param_counterexample :
    (handle_replicated_pool [] world0).2 = Except.ok (some missingParamDict)
    ∧ (handle_replicated_pool [("name", PyVal.str "foo")] world0).2
        = Except.ok (some missingParamDict)
    ∧ missingParamDict
        = PyVal.dict [("exit-code", PyVal.int 1), ("stderr", PyVal.str "Missing parameter.")]
    ∧ strMentions "Missing parameter." "name" = false
    ∧ strMentions "Missing parameter." "replicas" = false :=
  ⟨rfl, rfl, rfl, by decide, by decide⟩


/-- Claim C9 amended: when a required key (`name`, or `replicas` for a
replicated pool) is absent from a create-pool operation's params and no
`pg_num` capping interferes, the operation's result is exit-code 1 with
the fixed generic message `Missing parameter.` in `stderr`; the
offending key is not named. -/

theorem replicated_pool_missing_param :
    ∀ (req : List (String × PyVal)) (w : World),
      pyTruthy (lookupStr req "pg_num") = false →
      ((lookupStr req "name").isNone ∨ (lookupStr req "replicas").isNone) →
      (handle_replicated_pool req w).2 = Except.ok (some missingParamDict) := by
  intro req w hpg hmiss
  have hb : ((lookupStr req "name").isNone || (lookupStr req "replicas").isNone) = true := by
    rcases hmiss with h | h <;> simp [h]
  simp only [handle_replicated_pool, hpg, hb, Bool.false_eq_true, if_false, if_true]


/-- Claim C9 witness: the amended statement applied to the empty
request. -/

theorem replicated_pool_missing_param_witness :
    pyTruthy (lookupStr ([] : List (String × PyVal)) "pg_num") = false
    ∧ (lookupStr ([] : List (String × PyVal)) "name").isNone = true
    ∧ (handle_replicated_pool [] world0).2 = Except.ok (some missingParamDict) :=
  ⟨rfl, rfl, replicated_pool_missing_param [] world0 rfl (Or.inl rfl)⟩


/-- Claim C8 amended: a truthy `request-id` is echoed on the
invalid-api-version response and on every v1 response that completes
without an uncaught exception; but the response built by the
`except Exception` arm (missing `ops` key, or a handler raising) is
`{"exit-code": 1, "stderr": ...}` WITHOUT the `request-id`. -/

theorem request_id_echo_amended :
    ∀ (σ : Type) (jump : String → Option (Handler σ)) (reqs : List (String × PyVal))
      (s : σ) (rid : PyVal),
      lookupStr reqs "request-id" = some rid →
      pyTruthy (some rid) = true →
      ((lookupStr reqs "api-version" ≠ some (PyVal.int 1) →
          respGet (process_requests jump reqs s).2 "request-id" = some rid)
        ∧ (∀ ops r, lookupStr reqs "api-version" = some (PyVal.int 1) →
            lookupStr reqs "ops" = some (PyVal.list ops) →
            (process_requests_v1 jump ops s).result = Except.ok r →
            respGet (process_requests jump reqs s).2 "request-id" = some rid)
        ∧ (lookupStr reqs "api-version" = some (PyVal.int 1) →
            lookupStr reqs "ops" = Option.none →
            respGet (process_requests jump reqs s).2 "request-id" = Option.none)
        ∧ (∀ ops e, lookupStr reqs "api-version" = some (PyVal.int 1) →
            lookupStr reqs "ops" = some (PyVal.list ops) →
            (process_requests_v1 jump ops s).result = Except.error e →
            respGet (process_requests jump reqs s).2 "request-id" = Option.none)) := by
  intro σ jump reqs s rid hrid htru
  refine ⟨?_, ?_, ?_, ?_⟩
  · intro hne
    simp only [process_requests, hrid]
    exact respGet_addReqId _ rid htru
  · intro ops r hv hops hok
    simp only [process_requests, hrid, hv, hops, hok]
    obtain ⟨es, rfl⟩ := v1_ok_result_is_dict jump ops s Option.none [] r hok
    exact respGet_addReqId es rid htru
  · intro hv hops
    simp only [process_requests, hrid, hv, hops]
    simp [exceptionResp, respGet, lookupStr]
  · intro ops e hv hops herr
    simp only [process_requests, hrid, hv, hops, herr]
    simp [exceptionResp, respGet, lookupStr]


/-- Claim C8 counterexample: a version-1 envelope with a `request-id`
but no `ops` key raises `KeyError`, and the resulting exception-path
response does not contain the `request-id`. -/

theorem request_id_dropped_on_exception :
    lookupStr envelopeNoOps "request-id" = some (PyVal.str "2ab0acf4")
    ∧ (process_requests (fun _ => (Option.none : Option (Handler Unit))) envelopeNoOps ()).2
        = exceptionResp envelopeNoOps
    ∧ respGet (process_requests (fun _ => (Option.none : Option (Handler Unit)))
        envelopeNoOps ()).2 "request-id" = Option.none :=
  ⟨rfl, rfl, rfl⟩


/-- Claim C8 witness: the amended claim applied to an api-version-2
envelope, whose response echoes the `request-id`. -/

theorem request_id_echo_witness :
    respGet (process_requests (fun _ => (Option.none : Option (Handler Unit)))
        [("api-version", PyVal.int 2), ("request-id", PyVal.str "abc")] ()).2 "request-id"
      = some (PyVal.str "abc") := by
  have h := request_id_echo_amended Unit (fun _ => Option.none)
    [("api-version", PyVal.int 2), ("request-id", PyVal.str "abc")] () (PyVal.str "abc")
    rfl rfl
  refine h.1 ?_
  rw [show lookupStr [("api-version", PyVal.int 2), ("request-id", PyVal.str "abc")]
        "api-version" = some (PyVal.int 2) from rfl]
  intro hcon
  simp at hcon
